import Mathlib

/-!
# Verification of the OpenPlanningPoker session/user registry

Shallow embedding of `src/server/src/main.rs` (the registry of users and
sessions, the creation handler, the user-info handler and one iteration of
the reaper loop), together with theorems settling the specification's
claims about it.

Modelling conventions:
* `Uuid` is an opaque identifier used only for equality and lookup; we model
  it as `Nat`.
* `SystemTime::now()` values and `Duration` values are modelled in whole
  epoch seconds as `Nat` (the code stores `expires_at` as
  `duration_since(UNIX_EPOCH).as_secs()`, a `u64` of whole seconds).
* A `std::collections::HashMap` is modelled as an association list with
  unique keys; `insert` replaces any previous binding, `retain` is `filter`,
  `remove` deletes the binding.  Iteration order is irrelevant to every
  property proved here.
* Sources of nondeterminism in the code (`Uuid::new_v4()`,
  `SystemTime::now()`) become explicit parameters of the embedded
  operations.
-/

deriving instance DecidableEq for Except

namespace PlanningPoker

/-- Opaque identifier (`uuid::Uuid` in the code): used only for equality and
lookup. -/
abbrev Uuid := Nat

/-- Number of bytes of the UTF-8 encoding of one character; Rust's
`str::len` counts bytes, not characters. -/
def charUtf8Size (c : Char) : Nat :=
  if c.val.toNat < 0x80 then 1
  else if c.val.toNat < 0x800 then 2
  else if c.val.toNat < 0x10000 then 3
  else 4

/-- Rust's `str::len`: the length of the string in UTF-8 bytes. -/
def rustStrLen (s : String) : Nat :=
  (s.data.map charUtf8Size).sum

/-- The fragment of Rust's `char::is_alphanumeric` (Unicode `Alphabetic`
or categories Nd/Nl/No) below code point `0x100`: exact there (ASCII
digits and letters; the Latin-1 supplement's letters, superscript digits
and vulgar fractions) and `false` above, where the full Unicode tables are
not reproduced.  Every character this fragment accepts is accepted by the
real predicate, so rejection-direction results stated with it cover every
string the program rejects; acceptance-direction results are instead
stated over an arbitrary character predicate (see
`Username.is_valid_alnum`), which the validation logic only ever applies
characterwise, and hence hold for the full Unicode predicate as well. -/
def rustIsAlphanumeric (c : Char) : Bool :=
  let n := c.val.toNat
  (0x30 ≤ n && n ≤ 0x39) ||
  (0x41 ≤ n && n ≤ 0x5A) ||
  (0x61 ≤ n && n ≤ 0x7A) ||
  n == 0xAA || n == 0xB2 || n == 0xB3 || n == 0xB5 ||
  n == 0xB9 || n == 0xBA || n == 0xBC || n == 0xBD || n == 0xBE ||
  (0xC0 ≤ n && n ≤ 0xD6) || (0xD8 ≤ n && n ≤ 0xF6) || (0xF8 ≤ n && n ≤ 0xFF)

/-- The error message of `Username::new` in the code. -/
def invalidUsernameMsg : String :=
  "Invalid username: it must be between 3 and 20 characters long and contain only alphanumeric characters"

/-- `Username` — a validated string (`struct Username { value: String }`). -/
structure Username where
  value : String
deriving DecidableEq

/-- `Username::is_valid`: `let len = username.len(); len >= 3 && len <= 20 &&
username.chars().all(char::is_alphanumeric)`.  Note `username.len()` is the
UTF-8 byte length. -/
def Username.is_valid (username : String) : Bool :=
  decide (3 ≤ rustStrLen username) && decide (rustStrLen username ≤ 20) &&
    username.data.all rustIsAlphanumeric

/-- `Username::new`: validates and wraps the string, or fails with the
validation error message. -/
def Username.new (username : String) : Except String Username :=
  if Username.is_valid username then .ok { value := username }
  else .error invalidUsernameMsg

/-- `Username::is_valid` with the external `char::is_alphanumeric` left
abstract as a parameter `alnum`: the validation logic never does anything
with the predicate except apply it to each character, so a property proved
for every `alnum` holds in particular for the full Unicode predicate.
Instantiated at `rustIsAlphanumeric` this is definitionally
`Username.is_valid`. -/
def Username.is_valid_alnum (alnum : Char → Bool) (username : String) : Bool :=
  decide (3 ≤ rustStrLen username) && decide (rustStrLen username ≤ 20) &&
    username.data.all alnum

/-- `Username::new` with the character predicate abstracted, as in
`Username.is_valid_alnum`. -/
def Username.new_alnum (alnum : Char → Bool) (username : String) : Except String Username :=
  if Username.is_valid_alnum alnum username then .ok { value := username }
  else .error invalidUsernameMsg

/-- `User` — identity record (`struct User { uuid, name, current_table_id }`). -/
structure User where
  uuid : Uuid
  name : Username
  current_table_id : Option String
deriving DecidableEq

/-- `User::new`: generates a uuid (here an explicit parameter standing for
`Uuid::new_v4()`), validates the username and constructs the record with
`current_table_id = None`. -/
def User.new (uuid : Uuid) (name : String) : Except String User :=
  match Username.new name with
  | .error e => .error e
  | .ok username => .ok { uuid := uuid, name := username, current_table_id := none }

/-- `Session` — ephemeral credential (`struct Session { session_id, user_id,
expires_at }`), `expires_at` in whole epoch seconds. -/
structure Session where
  session_id : Uuid
  user_id : Uuid
  expires_at : Nat
deriving DecidableEq

/-- `Session::new`: fresh session id (explicit parameter standing for
`Uuid::new_v4()`), `expires_at = (SystemTime::now() + duration)` in whole
epoch seconds, i.e. `now + duration` with both in seconds. -/
def Session.new (user_id : Uuid) (duration : Nat) (session_id : Uuid) (now : Nat) : Session :=
  { session_id := session_id, user_id := user_id, expires_at := now + duration }

/-- `Session::is_expired`: `now > self.expires_at`, with `now` the current
time in epoch seconds (an explicit parameter here). -/
def Session.is_expired (s : Session) (now : Nat) : Bool :=
  decide (now > s.expires_at)

/-- A `HashMap<Uuid, α>` modelled as an association list with unique keys. -/
abbrev Store (α : Type) : Type := List (Uuid × α)

/-- `HashMap::get`: the value bound to `k`, if any. -/
def Store.get? {α : Type} : Store α → Uuid → Option α
  | [], _ => none
  | (k, v) :: m, q => if q = k then some v else Store.get? m q

/-- `HashMap::remove`: delete the binding of `k`. -/
def Store.remove {α : Type} : Store α → Uuid → Store α
  | [], _ => []
  | (a, v) :: m, k => if a = k then Store.remove m k else (a, v) :: Store.remove m k

/-- `HashMap::insert`: bind `k` to `v`, replacing any previous binding. -/
def Store.insert {α : Type} (m : Store α) (k : Uuid) (v : α) : Store α :=
  (k, v) :: Store.remove m k

/-- A well-formed store: a `HashMap` never holds two bindings with the same
key. -/
abbrev Store.WF {α : Type} (m : Store α) : Prop :=
  (m.map Prod.fst).Nodup

/-- The two shared stores (`UserStore` and `SessionStore` in the code). -/
structure RegistryState where
  user_store : Store User
  session_store : Store Session
deriving DecidableEq

/-- `create_session_handler` up to the choice of TTL (the registry's
`create_user_and_session(name, ttl)` of the spec): validate and build the
user (on failure return the error with the stores untouched), insert the
user, build a session for it expiring at `now + ttl`, insert the session,
and return user and session.  `user_uuid` and `session_uuid` stand for the
two `Uuid::new_v4()` calls and `now` for `SystemTime::now()` in seconds. -/
def create_user_and_session (name : String) (ttl : Nat)
    (user_uuid session_uuid : Uuid) (now : Nat) (st : RegistryState) :
    Except String (User × Session) × RegistryState :=
  match User.new user_uuid name with
  | .error e => (.error e, st)
  | .ok user =>
    let user_store := Store.insert st.user_store user.uuid user
    let session := Session.new user.uuid ttl session_uuid now
    let session_store := Store.insert st.session_store session.session_id session
    (.ok (user, session), { user_store := user_store, session_store := session_store })

/-- `create_session_handler` as in the code: the TTL is the constant
`Duration::from_secs(30)`. -/
def create_session_handler (name : String) (user_uuid session_uuid : Uuid)
    (now : Nat) (st : RegistryState) :
    Except String (User × Session) × RegistryState :=
  create_user_and_session name 30 user_uuid session_uuid now st

/-- `get_user_info_handler`: given the optional session id from the cookie,
look up the session, then the session's user; `none` models the
`warp::reject::not_found()` rejection of every failing path.  The code
performs no expiry check on this path. -/
def get_user_info_handler (session_id : Option Uuid) (st : RegistryState) : Option User :=
  match session_id with
  | none => none
  | some sid =>
    match Store.get? st.session_store sid with
    | none => none
    | some session => Store.get? st.user_store session.user_id

/-- One iteration of the loop body of `clean_up_sessions`, at a fixed call
time `now`: collect the user ids of expired sessions, retain only the
non-expired sessions, and remove each collected user id from the user
store. -/
def sweep_expired (now : Nat) (st : RegistryState) : RegistryState :=
  let expired_user_ids : List Uuid :=
    st.session_store.filterMap
      (fun p => if Session.is_expired p.2 now then some p.2.user_id else none)
  let session_store := st.session_store.filter (fun p => !(Session.is_expired p.2 now))
  let user_store := expired_user_ids.foldl (fun us uid => Store.remove us uid) st.user_store
  { user_store := user_store, session_store := session_store }

/-! ## Store lemmas -/

theorem Store.get?_remove {α : Type} (m : Store α) (k q : Uuid) :
    Store.get? (Store.remove m k) q = if q = k then none else Store.get? m q := by
  induction m with
  | nil => simp [Store.remove, Store.get?]
  | cons p m ih =>
    obtain ⟨a, v⟩ := p
    simp only [Store.remove, Store.get?]
    by_cases hak : a = k
    · rw [if_pos hak, ih]
      by_cases hq : q = k
      · simp [hq]
      · rw [if_neg hq, if_neg hq, if_neg (fun e : q = a => hq (hak ▸ e))]
    · rw [if_neg hak]
      simp only [Store.get?]
      by_cases hq : q = a
      · have hqk : ¬q = k := fun e => hak (hq.symm.trans e)
        rw [if_pos hq, if_neg hqk, if_pos hq]
      · rw [if_neg hq, if_neg hq, ih]

theorem Store.get?_insert {α : Type} (m : Store α) (k q : Uuid) (v : α) :
    Store.get? (Store.insert m k v) q = if q = k then some v else Store.get? m q := by
  simp only [Store.insert, Store.get?]
  by_cases hq : q = k
  · simp [hq]
  · rw [if_neg hq, if_neg hq, Store.get?_remove, if_neg hq]

theorem Store.get?_removeList {α : Type} (ids : List Uuid) (m : Store α) (q : Uuid) :
    Store.get? (ids.foldl (fun us uid => Store.remove us uid) m) q =
      if q ∈ ids then none else Store.get? m q := by
  induction ids generalizing m with
  | nil => simp
  | cons i is ih =>
    simp only [List.foldl_cons]
    rw [ih]
    by_cases hmem : q ∈ is
    · simp [hmem]
    · rw [if_neg hmem, Store.get?_remove]
      by_cases hqi : q = i
      · simp [hqi]
      · simp [hqi, hmem]

theorem Store.mem_of_get?_eq_some {α : Type} (m : Store α) (q : Uuid) (v : α)
    (h : Store.get? m q = some v) : (q, v) ∈ m := by
  induction m with
  | nil => simp [Store.get?] at h
  | cons p m ih =>
    obtain ⟨a, w⟩ := p
    simp only [Store.get?] at h
    by_cases hq : q = a
    · rw [if_pos hq] at h
      cases h
      subst hq
      exact List.mem_cons_self _ _
    · rw [if_neg hq] at h
      exact List.mem_cons_of_mem _ (ih h)

theorem Store.get?_eq_none_of_forall {α : Type} (m : Store α) (q : Uuid)
    (h : ∀ p ∈ m, p.1 ≠ q) : Store.get? m q = none := by
  induction m with
  | nil => rfl
  | cons p m ih =>
    obtain ⟨a, w⟩ := p
    simp only [Store.get?]
    have haq : q ≠ a := fun e => h (a, w) (List.mem_cons_self _ _) e.symm
    rw [if_neg haq]
    exact ih (fun p hp => h p (List.mem_cons_of_mem _ hp))

theorem Store.get?_filter_of_wf {α : Type} (m : Store α) (f : Uuid × α → Bool)
    (hwf : Store.WF m) (q : Uuid) (v : α) (h : Store.get? m q = some v) :
    Store.get? (m.filter f) q = if f (q, v) then some v else none := by
  induction m with
  | nil => simp [Store.get?] at h
  | cons p m ih =>
    obtain ⟨a, w⟩ := p
    simp only [Store.WF, List.map_cons, List.nodup_cons] at hwf
    simp only [Store.get?] at h
    by_cases hq : q = a
    · rw [if_pos hq] at h
      cases h
      subst hq
      have hnone : ∀ p ∈ m.filter f, p.1 ≠ q := by
        intro p hp he
        exact hwf.1 (he ▸ List.mem_map_of_mem Prod.fst (List.mem_of_mem_filter hp))
      rw [List.filter_cons]
      by_cases hf : f (q, v)
      · rw [if_pos (by simpa using hf)]
        simp [Store.get?, hf]
      · rw [if_neg (by simpa using hf), if_neg hf]
        exact Store.get?_eq_none_of_forall _ _ hnone
    · rw [if_neg hq] at h
      rw [List.filter_cons]
      by_cases hf : f (a, w)
      · rw [if_pos (by simpa using hf)]
        simp only [Store.get?, if_neg hq]
        exact ih hwf.2 h
      · rw [if_neg (by simpa using hf)]
        exact ih hwf.2 h

theorem Store.mem_of_mem_remove {α : Type} (p : Uuid × α) (m : Store α) (k : Uuid)
    (h : p ∈ Store.remove m k) : p ∈ m := by
  induction m with
  | nil => simp [Store.remove] at h
  | cons q m ih =>
    obtain ⟨a, v⟩ := q
    simp only [Store.remove] at h
    by_cases hak : a = k
    · rw [if_pos hak] at h
      exact List.mem_cons_of_mem _ (ih h)
    · rw [if_neg hak] at h
      rcases List.mem_cons.mp h with h | h
      · exact h ▸ List.mem_cons_self _ _
      · exact List.mem_cons_of_mem _ (ih h)

theorem Store.mem_insert {α : Type} (p : Uuid × α) (m : Store α) (k : Uuid) (v : α)
    (h : p ∈ Store.insert m k v) : p = (k, v) ∨ p ∈ m := by
  simp only [Store.insert, List.mem_cons] at h
  rcases h with h | h
  · exact Or.inl h
  · exact Or.inr (Store.mem_of_mem_remove _ _ _ h)

/-! ## Claims C3 and C4: username validation

`Username::is_valid` measures `username.len()`, the UTF-8 **byte** length,
while the claims speak of **characters**.  The two measures differ on
multi-byte alphanumeric characters such as `'é'` (2 UTF-8 bytes,
alphanumeric for Rust's `char::is_alphanumeric`), which refutes both claims
as stated; the amended statements replace character counts by byte
counts. -/

/-- Characterization of `Username::is_valid`. -/
theorem username_is_valid_iff (s : String) :
    Username.is_valid s = true ↔
      3 ≤ rustStrLen s ∧ rustStrLen s ≤ 20 ∧ ∀ c ∈ s.data, rustIsAlphanumeric c = true := by
  simp [Username.is_valid, and_assoc]

/-- C3 counterexample: the string `"éé"` has 2 characters (fewer than 3),
every character alphanumeric, yet `Username::new` accepts it, because its
UTF-8 byte length is 4. -/
theorem username_two_chars_accepted :
    ("éé" : String).length < 3 ∧ ("éé" : String).data.all rustIsAlphanumeric = true ∧
      Username.new "éé" = .ok { value := "éé" } := by
  decide

/-- C3 (amended): every string whose UTF-8 byte length is below 3 or above
20, or that contains a non-alphanumeric character, is rejected by
`Username::new` with the validation error. -/
theorem username_invalid_rejected (s : String)
    (h : rustStrLen s < 3 ∨ 20 < rustStrLen s ∨ ∃ c ∈ s.data, rustIsAlphanumeric c = false) :
    Username.new s = .error invalidUsernameMsg := by
  have hv : Username.is_valid s = false := by
    rw [Bool.eq_false_iff]
    intro htrue
    rw [username_is_valid_iff] at htrue
    obtain ⟨h3, h20, hall⟩ := htrue
    rcases h with h | h | ⟨c, hc, hcf⟩
    · omega
    · omega
    · rw [hall c hc] at hcf
      exact Bool.noConfusion hcf
  simp [Username.new, hv]

/-- C3 witness. -/
theorem username_invalid_rejected_witness :
    Username.new "a!" = .error invalidUsernameMsg :=
  username_invalid_rejected "a!" (by decide)

/-- C4 counterexample: a string of 11 characters (between 3 and 20), all
alphanumeric, that `Username::new` nevertheless rejects, because its UTF-8
byte length is 22. -/
theorem username_eleven_chars_rejected :
    (3 ≤ ("ééééééééééé" : String).length ∧ ("ééééééééééé" : String).length ≤ 20 ∧
      ("ééééééééééé" : String).data.all rustIsAlphanumeric = true) ∧
    Username.new "ééééééééééé" = .error invalidUsernameMsg := by
  decide

/-- `Username::new` is `Username.new_alnum` instantiated at the Latin-1
fragment of the character predicate (definitionally). -/
theorem username_new_eq_alnum (s : String) :
    Username.new s = Username.new_alnum rustIsAlphanumeric s := rfl

/-- Characterization of `Username::is_valid` with the character predicate
abstracted. -/
theorem username_is_valid_alnum_iff (alnum : Char → Bool) (s : String) :
    Username.is_valid_alnum alnum s = true ↔
      3 ≤ rustStrLen s ∧ rustStrLen s ≤ 20 ∧ ∀ c ∈ s.data, alnum c = true := by
  simp [Username.is_valid_alnum, and_assoc]

/-- C4 (amended): for every character predicate `alnum` — in particular
Rust's full `char::is_alphanumeric`, which the validation logic only ever
applies to each character in turn — every string whose UTF-8 byte length
is between 3 and 20 and whose characters all satisfy the predicate is
accepted by `Username::new`, and the `value` field of the constructed
`Username` is the original string unchanged.  Quantifying over the
predicate keeps the acceptance direction faithful on the whole Unicode
alphabet (Cyrillic, Greek, CJK, …), not only on the Latin-1 fragment
reproduced in `rustIsAlphanumeric`: for example the 3-character, 6-byte
Cyrillic string "ппп", accepted by the program, is covered by
instantiating `alnum` at any predicate true on `'п'`, as
`char::is_alphanumeric` is. -/
theorem username_valid_roundtrip (alnum : Char → Bool) (s : String)
    (h3 : 3 ≤ rustStrLen s) (h20 : rustStrLen s ≤ 20)
    (halnum : ∀ c ∈ s.data, alnum c = true) :
    Username.new_alnum alnum s = .ok { value := s } ∧ (Username.mk s).value = s := by
  have hv : Username.is_valid_alnum alnum s = true :=
    (username_is_valid_alnum_iff alnum s).mpr ⟨h3, h20, halnum⟩
  exact ⟨by simp [Username.new_alnum, hv], rfl⟩

/-- C4 witness: instantiated once at the Latin-1 fragment on an ASCII name
and once, for the string "ппп", at a predicate true on the Cyrillic letter
`'п'` (as Rust's `char::is_alphanumeric` is). -/
theorem username_valid_roundtrip_witness :
    (Username.new_alnum rustIsAlphanumeric "alice" = .ok { value := "alice" } ∧
      (Username.mk "alice").value = "alice") ∧
    Username.new_alnum (fun c => c == 'п') "ппп" = .ok { value := "ппп" } :=
  ⟨username_valid_roundtrip rustIsAlphanumeric "alice" (by decide) (by decide) (by decide),
   (username_valid_roundtrip (fun c => c == 'п') "ппп"
      (by decide) (by decide) (by decide)).1⟩

/-! ## Behaviour of `create_user_and_session` on each branch -/

/-- On an invalid username, creation fails with the validation error and
returns the stores untouched. -/
theorem create_user_and_session_err (name : String) (ttl user_uuid session_uuid now : Nat)
    (st : RegistryState) (h : Username.is_valid name = false) :
    create_user_and_session name ttl user_uuid session_uuid now st
      = (.error invalidUsernameMsg, st) := by
  simp [create_user_and_session, User.new, Username.new, h]

/-- On a valid username, creation returns the new user and session and the
stores extended with them. -/
theorem create_user_and_session_ok (name : String) (ttl user_uuid session_uuid now : Nat)
    (st : RegistryState) (hv : Username.is_valid name = true) :
    create_user_and_session name ttl user_uuid session_uuid now st =
      (.ok ({ uuid := user_uuid, name := ⟨name⟩, current_table_id := none },
            { session_id := session_uuid, user_id := user_uuid, expires_at := now + ttl }),
       { user_store := Store.insert st.user_store user_uuid ⟨user_uuid, ⟨name⟩, none⟩,
         session_store :=
           Store.insert st.session_store session_uuid ⟨session_uuid, user_uuid, now + ttl⟩ }) := by
  simp [create_user_and_session, User.new, Username.new, hv, Session.new]

/-! ## Claim C9: expiry timestamp and strict expiry predicate -/

/-- C9: `Session::new` sets `expires_at` to the creation time plus the TTL
in whole epoch seconds, and `Session::is_expired` holds exactly when `now`
is strictly greater than `expires_at`; in particular, at `now = expires_at`
the session is not yet expired. -/
theorem session_expiry_semantics (user_id ttl session_id now : Nat) :
    (Session.new user_id ttl session_id now).expires_at = now + ttl ∧
    (∀ t : Nat, Session.is_expired (Session.new user_id ttl session_id now) t
        = decide (t > now + ttl)) ∧
    Session.is_expired (Session.new user_id ttl session_id now) (now + ttl) = false := by
  refine ⟨rfl, fun t => rfl, ?_⟩
  simp [Session.is_expired, Session.new]

/-! ## Claim C7: validation failure causes no partial state -/

/-- C7: for every input string failing username validation,
`create_user_and_session` returns the validation error and leaves both
stores exactly unchanged. -/
theorem create_invalid_leaves_state (name : String) (ttl user_uuid session_uuid now : Nat)
    (st : RegistryState) (h : Username.is_valid name = false) :
    (create_user_and_session name ttl user_uuid session_uuid now st).1
        = .error invalidUsernameMsg ∧
    (create_user_and_session name ttl user_uuid session_uuid now st).2 = st := by
  rw [create_user_and_session_err name ttl user_uuid session_uuid now st h]
  exact ⟨rfl, rfl⟩

/-- C7 witness. -/
theorem create_invalid_leaves_state_witness :
    (create_user_and_session "a!" 30 1 2 0 { user_store := [], session_store := [] }).1
        = .error invalidUsernameMsg ∧
    (create_user_and_session "a!" 30 1 2 0 { user_store := [], session_store := [] }).2
        = { user_store := [], session_store := [] } :=
  create_invalid_leaves_state "a!" 30 1 2 0 { user_store := [], session_store := [] } (by decide)

/-! ## Claim C8: the two NotFound cases are uniform -/

/-- C8: `get_user_info_handler` rejects (returns `none`, the
`not_found` rejection) both when the presented identifier has no session
and when the session's user id does not resolve, and the two cases produce
the identical result; the function is total, so neither case panics. -/
theorem get_not_found_uniform (st : RegistryState) (sid : Uuid) :
    (Store.get? st.session_store sid = none → get_user_info_handler (some sid) st = none) ∧
    (∀ s : Session, Store.get? st.session_store sid = some s →
      Store.get? st.user_store s.user_id = none →
      get_user_info_handler (some sid) st = none) := by
  constructor
  · intro h
    simp [get_user_info_handler, h]
  · intro s hs hu
    simp [get_user_info_handler, hs, hu]

/-- C8 witness: a never-issued identifier and a dangling session produce
the same `none`. -/
theorem get_not_found_uniform_witness :
    get_user_info_handler (some 7) { user_store := [], session_store := [(2, ⟨2, 9, 50⟩)] }
        = none ∧
    get_user_info_handler (some 2) { user_store := [], session_store := [(2, ⟨2, 9, 50⟩)] }
        = none :=
  ⟨(get_not_found_uniform { user_store := [], session_store := [(2, ⟨2, 9, 50⟩)] } 7).1
      (by decide),
   (get_not_found_uniform { user_store := [], session_store := [(2, ⟨2, 9, 50⟩)] } 2).2
      ⟨2, 9, 50⟩ (by decide) (by decide)⟩

/-! ## Claim C10: the handler's TTL is the constant 30 seconds -/

/-- C10: every session created by `create_session_handler` expires exactly
30 seconds after its creation time; the TTL is the constant
`Duration::from_secs(30)` of the creation path, independent of the request
and of any configuration. -/
theorem create_session_handler_ttl_30 (name : String) (user_uuid session_uuid now : Nat)
    (st : RegistryState) (u : User) (s : Session)
    (h : (create_session_handler name user_uuid session_uuid now st).1 = .ok (u, s)) :
    s.expires_at = now + 30 := by
  by_cases hv : Username.is_valid name
  · rw [create_session_handler,
      create_user_and_session_ok name 30 user_uuid session_uuid now st hv] at h
    simp only [Except.ok.injEq, Prod.mk.injEq] at h
    rw [← h.2]
  · rw [create_session_handler,
      create_user_and_session_err name 30 user_uuid session_uuid now st
        (Bool.eq_false_iff.mpr hv)] at h
    cases h

/-- C10 witness. -/
theorem create_session_handler_ttl_30_witness :
    Session.expires_at ⟨2, 1, 42 + 30⟩ = 42 + 30 :=
  create_session_handler_ttl_30 "alice" 1 2 42 { user_store := [], session_store := [] }
    ⟨1, ⟨"alice"⟩, none⟩ ⟨2, 1, 42 + 30⟩ (by decide)

/-! ## Claim C5: create then read round-trip -/

/-- C5: after a successful `create_user_and_session` call with a valid
username and any TTL, reading the returned session id (here at any time
before the session's expiry, though the code never consults the clock on
this path) returns exactly the created user, whose username is the string
passed to the call. -/
theorem create_then_get_roundtrip (name : String) (ttl user_uuid session_uuid now : Nat)
    (st : RegistryState) (u : User) (s : Session)
    (h : (create_user_and_session name ttl user_uuid session_uuid now st).1 = .ok (u, s))
    (now2 : Nat) (hlive : Session.is_expired s now2 = false) :
    get_user_info_handler (some s.session_id)
        (create_user_and_session name ttl user_uuid session_uuid now st).2 = some u ∧
    u.name.value = name := by
  by_cases hv : Username.is_valid name
  · rw [create_user_and_session_ok name ttl user_uuid session_uuid now st hv] at h ⊢
    simp only [Except.ok.injEq, Prod.mk.injEq] at h
    obtain ⟨hu, hs⟩ := h
    subst hu
    subst hs
    refine ⟨?_, rfl⟩
    simp [get_user_info_handler, Store.get?_insert]
  · rw [create_user_and_session_err name ttl user_uuid session_uuid now st
      (Bool.eq_false_iff.mpr hv)] at h
    cases h

/-- C5 witness. -/
theorem create_then_get_roundtrip_witness :
    get_user_info_handler (some (Session.session_id ⟨2, 1, 0 + 30⟩))
        (create_user_and_session "alice" 30 1 2 0
          { user_store := [], session_store := [] }).2
      = some ⟨1, ⟨"alice"⟩, none⟩ ∧
    Username.value (User.name ⟨1, ⟨"alice"⟩, none⟩) = "alice" :=
  create_then_get_roundtrip "alice" 30 1 2 0 { user_store := [], session_store := [] }
    ⟨1, ⟨"alice"⟩, none⟩ ⟨2, 1, 0 + 30⟩ (by decide) 10 (by decide)

/-! ## Claim C1: no expiry check on the read path

The code of `get_user_info_handler` never calls `Session::is_expired`: a
session whose expiry has passed is still served until a sweep removes it.
The claim as stated is therefore false; the counterexample creates a
session with `ttl = 0` and reads it at a later time. -/

/-- C1 counterexample: a session created with `ttl = 0` at time 0 is
expired at time 5, yet `get_user_info_handler` returns its user rather
than `NotFound`, because the read path performs no expiry check. -/
theorem expired_session_still_served :
    (create_user_and_session "alice" 0 1 2 0 { user_store := [], session_store := [] }).1
      = .ok (⟨1, ⟨"alice"⟩, none⟩, ⟨2, 1, 0⟩) ∧
    Session.is_expired ⟨2, 1, 0⟩ 5 = true ∧
    get_user_info_handler (some 2)
      (create_user_and_session "alice" 0 1 2 0 { user_store := [], session_store := [] }).2
      = some ⟨1, ⟨"alice"⟩, none⟩ := by
  decide

/-- C1 (amended): `get_user_info_handler` ignores expiry: whenever the
presented identifier resolves to a stored session and that session's
`user_id` resolves to a stored user, the user is returned — even at a time
at which the session is expired.  `NotFound` is returned only for an absent
session or an unresolvable user; an expired session is rejected only after
a sweep has removed it. -/
theorem get_ignores_expiry (st : RegistryState) (sid : Uuid) (s : Session) (u : User)
    (now : Nat) (_hexp : Session.is_expired s now = true)
    (hs : Store.get? st.session_store sid = some s)
    (hu : Store.get? st.user_store s.user_id = some u) :
    get_user_info_handler (some sid) st = some u := by
  simp [get_user_info_handler, hs, hu]

/-- C1 witness. -/
theorem get_ignores_expiry_witness :
    get_user_info_handler (some 2)
      { user_store := [(1, ⟨1, ⟨"alice"⟩, none⟩)], session_store := [(2, ⟨2, 1, 0⟩)] }
      = some ⟨1, ⟨"alice"⟩, none⟩ :=
  get_ignores_expiry
    { user_store := [(1, ⟨1, ⟨"alice"⟩, none⟩)], session_store := [(2, ⟨2, 1, 0⟩)] }
    2 ⟨2, 1, 0⟩ ⟨1, ⟨"alice"⟩, none⟩ 5 (by decide) (by decide) (by decide)

/-! ## Claim C2: correctness of one sweep

`clean_up_sessions` removes the user id of **every** expired session from
the user store.  In a state in which an expired session and a non-expired
session reference the same user (a state two `HashMap`s can hold, though
the creation path never produces it because identifiers are fresh), the
sweep removes the live session's user, so the claim quantified over every
state is false.  The amended claim adds the hypothesis that no non-expired
session shares its user with an expired one; the `Store.WF` hypothesis
only encodes that a `HashMap` holds at most one binding per key. -/

/-- The membership characterization of the `expired_user_ids` list the
sweep collects. -/
theorem mem_expired_user_ids (st : RegistryState) (now : Nat) (uid : Uuid) :
    uid ∈ st.session_store.filterMap
        (fun p => if Session.is_expired p.2 now then some p.2.user_id else none) ↔
      ∃ p ∈ st.session_store, Session.is_expired p.2 now = true ∧ p.2.user_id = uid := by
  simp only [List.mem_filterMap]
  constructor
  · rintro ⟨p, hp, hf⟩
    by_cases he : Session.is_expired p.2 now
    · rw [if_pos he] at hf
      cases hf
      exact ⟨p, hp, he, rfl⟩
    · rw [if_neg he] at hf
      cases hf
  · rintro ⟨p, hp, he, huid⟩
    exact ⟨p, hp, by rw [if_pos he, huid]⟩

/-- C2 counterexample: at time 5, session 2 (expiring at 0) is expired and
session 3 (expiring at 100) is not, but both reference user 1; the sweep
keeps session 3 yet removes user 1, so a non-expired session does not
"remain together with its user". -/
theorem sweep_removes_live_sessions_user :
    Session.is_expired ⟨2, 1, 0⟩ 5 = true ∧
    Session.is_expired ⟨3, 1, 100⟩ 5 = false ∧
    Store.get?
      ({ user_store := [(1, ⟨1, ⟨"alice"⟩, none⟩)],
         session_store := [(2, ⟨2, 1, 0⟩), (3, ⟨3, 1, 100⟩)] } : RegistryState).user_store 1
      = some ⟨1, ⟨"alice"⟩, none⟩ ∧
    Store.get? (sweep_expired 5
      { user_store := [(1, ⟨1, ⟨"alice"⟩, none⟩)],
        session_store := [(2, ⟨2, 1, 0⟩), (3, ⟨3, 1, 100⟩)] }).session_store 3
      = some ⟨3, 1, 100⟩ ∧
    Store.get? (sweep_expired 5
      { user_store := [(1, ⟨1, ⟨"alice"⟩, none⟩)],
        session_store := [(2, ⟨2, 1, 0⟩), (3, ⟨3, 1, 100⟩)] }).user_store 1
      = none := by
  decide

/-- C2 (amended): for every well-formed state in which no non-expired
session references the same user as an expired session (true of every
state the creation path can produce, since each session gets a fresh
user), and every call time: after `sweep_expired`, every session expired
at call time is absent and its user is absent, and every session not
expired at call time is still present and its user binding is exactly what
it was before the sweep. -/
theorem sweep_expired_correct (now : Nat) (st : RegistryState)
    (hwf : Store.WF st.session_store)
    (hdisj : ∀ p ∈ st.session_store, ∀ q ∈ st.session_store,
      Session.is_expired p.2 now = false → Session.is_expired q.2 now = true →
      p.2.user_id ≠ q.2.user_id) :
    (∀ sid s, Store.get? st.session_store sid = some s →
      Session.is_expired s now = true →
      Store.get? (sweep_expired now st).session_store sid = none ∧
      Store.get? (sweep_expired now st).user_store s.user_id = none) ∧
    (∀ sid s, Store.get? st.session_store sid = some s →
      Session.is_expired s now = false →
      Store.get? (sweep_expired now st).session_store sid = some s ∧
      Store.get? (sweep_expired now st).user_store s.user_id
        = Store.get? st.user_store s.user_id) := by
  simp only [sweep_expired]
  constructor
  · intro sid s hget hexp
    constructor
    · rw [Store.get?_filter_of_wf st.session_store _ hwf sid s hget]
      simp [hexp]
    · rw [Store.get?_removeList, if_pos]
      rw [mem_expired_user_ids]
      exact ⟨(sid, s), Store.mem_of_get?_eq_some _ _ _ hget, hexp, rfl⟩
  · intro sid s hget hexp
    constructor
    · rw [Store.get?_filter_of_wf st.session_store _ hwf sid s hget]
      simp [hexp]
    · rw [Store.get?_removeList, if_neg]
      rw [mem_expired_user_ids]
      rintro ⟨p, hp, hpe, hpu⟩
      exact hdisj (sid, s) (Store.mem_of_get?_eq_some _ _ _ hget) p hp hexp hpe hpu.symm

/-- C2 witness: a state with one expired session (user 1) and one live
session (user 9). -/
theorem sweep_expired_correct_witness :
    Store.get? (sweep_expired 5
      { user_store := [(1, ⟨1, ⟨"alice"⟩, none⟩), (9, ⟨9, ⟨"bob99"⟩, none⟩)],
        session_store := [(2, ⟨2, 1, 0⟩), (3, ⟨3, 9, 100⟩)] }).session_store 2 = none ∧
    Store.get? (sweep_expired 5
      { user_store := [(1, ⟨1, ⟨"alice"⟩, none⟩), (9, ⟨9, ⟨"bob99"⟩, none⟩)],
        session_store := [(2, ⟨2, 1, 0⟩), (3, ⟨3, 9, 100⟩)] }).user_store 1 = none ∧
    Store.get? (sweep_expired 5
      { user_store := [(1, ⟨1, ⟨"alice"⟩, none⟩), (9, ⟨9, ⟨"bob99"⟩, none⟩)],
        session_store := [(2, ⟨2, 1, 0⟩), (3, ⟨3, 9, 100⟩)] }).session_store 3
      = some ⟨3, 9, 100⟩ ∧
    Store.get? (sweep_expired 5
      { user_store := [(1, ⟨1, ⟨"alice"⟩, none⟩), (9, ⟨9, ⟨"bob99"⟩, none⟩)],
        session_store := [(2, ⟨2, 1, 0⟩), (3, ⟨3, 9, 100⟩)] }).user_store 9
      = Store.get?
          ({ user_store := [(1, ⟨1, ⟨"alice"⟩, none⟩), (9, ⟨9, ⟨"bob99"⟩, none⟩)],
             session_store := [(2, ⟨2, 1, 0⟩), (3, ⟨3, 9, 100⟩)] } : RegistryState).user_store 9 := by
  have h := sweep_expired_correct 5
    { user_store := [(1, ⟨1, ⟨"alice"⟩, none⟩), (9, ⟨9, ⟨"bob99"⟩, none⟩)],
      session_store := [(2, ⟨2, 1, 0⟩), (3, ⟨3, 9, 100⟩)] }
    (by decide) (by decide)
  obtain ⟨h2a, h2b⟩ := h.1 2 ⟨2, 1, 0⟩ (by decide) (by decide)
  obtain ⟨h3a, h3b⟩ := h.2 3 ⟨3, 9, 100⟩ (by decide) (by decide)
  exact ⟨h2a, h2b, h3a, h3b⟩

/-! ## Claim C6: every reachable session resolves to a live user

States are reached from the empty stores by `create_user_and_session`
steps and `sweep_expired` steps.  A creation step takes fresh identifiers,
reflecting the spec's uniqueness guarantee for `Uuid::new_v4()` (collision
probability negligible); a failed creation returns the unchanged state, so
it needs no constructor of its own. -/

theorem Store.remove_sublist {α : Type} (m : Store α) (k : Uuid) :
    (Store.remove m k).Sublist m := by
  induction m with
  | nil => simp [Store.remove]
  | cons p m ih =>
    obtain ⟨a, v⟩ := p
    simp only [Store.remove]
    by_cases hak : a = k
    · rw [if_pos hak]
      exact ih.cons _
    · rw [if_neg hak]
      exact ih.cons₂ _

/-- The states reachable from the empty stores by creation steps (with
fresh identifiers) and sweeps. -/
inductive Reachable : RegistryState → Prop where
  | init : Reachable { user_store := [], session_store := [] }
  | create (st : RegistryState) (name : String) (ttl user_uuid session_uuid now : Nat) :
      Reachable st →
      Store.get? st.user_store user_uuid = none →
      Store.get? st.session_store session_uuid = none →
      Reachable (create_user_and_session name ttl user_uuid session_uuid now st).2
  | sweep (st : RegistryState) (now : Nat) :
      Reachable st → Reachable (sweep_expired now st)

/-- The relationship invariant of the claim: every stored session's
`user_id` resolves in the user store. -/
def SessionsResolve (st : RegistryState) : Prop :=
  ∀ p ∈ st.session_store, (Store.get? st.user_store p.2.user_id).isSome = true

/-- Auxiliary strengthening: distinct stored sessions reference distinct
users (each session is created together with its own fresh user). -/
def SessionUsersDistinct (st : RegistryState) : Prop :=
  st.session_store.Pairwise (fun p q => p.2.user_id ≠ q.2.user_id)

theorem reachable_invariant (st : RegistryState) (h : Reachable st) :
    SessionsResolve st ∧ SessionUsersDistinct st := by
  induction h with
  | init =>
    constructor
    · intro p hp
      simp at hp
    · exact List.Pairwise.nil
  | create st name ttl user_uuid session_uuid now _ hufresh hsfresh ih =>
    by_cases hv : Username.is_valid name
    · rw [create_user_and_session_ok name ttl user_uuid session_uuid now st hv]
      constructor
      · intro p hp
        rcases Store.mem_insert _ _ _ _ hp with hp | hp
        · subst hp
          rw [Store.get?_insert]
          simp
        · have hold := ih.1 p hp
          rw [Store.get?_insert]
          split
          · simp
          · exact hold
      · refine List.Pairwise.cons ?_ (ih.2.sublist (Store.remove_sublist _ _))
        intro q hq he
        have hold := ih.1 q (Store.mem_of_mem_remove _ _ _ hq)
        rw [← he] at hold
        rw [hufresh] at hold
        simp at hold
    · rw [create_user_and_session_err name ttl user_uuid session_uuid now st
        (Bool.eq_false_iff.mpr hv)]
      exact ih
  | sweep st now _ ih =>
    constructor
    · intro p hp
      have hmem := List.mem_of_mem_filter hp
      have hlive : Session.is_expired p.2 now = false := by
        have := List.of_mem_filter hp
        simpa using this
      have hnot : p.2.user_id ∉ st.session_store.filterMap
          (fun q => if Session.is_expired q.2 now then some q.2.user_id else none) := by
        rw [mem_expired_user_ids]
        rintro ⟨q, hq, hqe, hqu⟩
        by_cases hpq : p = q
        · rw [hpq, hqe] at hlive
          cases hlive
        · exact ih.2.forall (fun a b hab => (hab ∘ Eq.symm : _)) hmem hq hpq hqu.symm
      simp only [sweep_expired]
      rw [Store.get?_removeList, if_neg hnot]
      exact ih.1 p hmem
    · simp only [sweep_expired]
      exact ih.2.sublist (List.filter_sublist _)

/-- C6: in every state reachable from the empty stores by any sequence of
creations and sweeps, every session in the session store has a `user_id`
that resolves to a user present in the user store: no session is ever
orphaned from its user. -/
theorem reachable_sessions_resolve (st : RegistryState) (h : Reachable st) :
    SessionsResolve st :=
  (reachable_invariant st h).1

/-- C6 witness: the state after one successful creation step. -/
theorem reachable_sessions_resolve_witness :
    SessionsResolve
      (create_user_and_session "alice" 30 1 2 0
        { user_store := [], session_store := [] }).2 :=
  reachable_sessions_resolve _
    (Reachable.create { user_store := [], session_store := [] } "alice" 30 1 2 0
      Reachable.init rfl rfl)

end PlanningPoker
